import Mathlib

/-!
Verification of the asset-generation scripts of `nextjs-mini-app`
(`scripts/generate-flux-images.js` and the Gemini icon script shipped in
`scripts/fix-async-hooks.js`).

The JavaScript sources are shallowly embedded: strings are Lean `String`s,
JavaScript exceptions become `Except`/`Option` values (a `try`/`catch`
region maps every throwing path into its catch continuation), JSON values
become the inductive `Json` below, and `JSON.parse` is modelled by the
executable fuel-based parser `Json.parse` (JSON numerals are modelled as
integers; a numeral with a fractional part or exponent is treated as
unparsable, which none of the payloads relevant here contain).
Nondeterministic inputs of the scripts (clock timestamps, network
outcomes, the file system) are passed as explicit arguments.
-/

/-! ## JavaScript string primitives -/

/-- `jsStartsWithL p l` : does the char list `l` start with `p`?
Backs JavaScript `String.prototype.startsWith`. -/
def jsStartsWithL : List Char → List Char → Bool
  | p :: ps, c :: cs => p == c && jsStartsWithL ps cs
  | [], _ => true
  | _ :: _, [] => false

/-- JavaScript `s.startsWith(pre)`. -/
def jsStartsWith (s pre : String) : Bool :=
  jsStartsWithL pre.data s.data

/-- `jsIncludesL sub l` : does `l` contain `sub` as a contiguous run?
Backs JavaScript `String.prototype.includes`. -/
def jsIncludesL (sub : List Char) : List Char → Bool
  | [] => sub.isEmpty
  | c :: cs => jsStartsWithL sub (c :: cs) || jsIncludesL sub cs

/-- JavaScript `s.includes(sub)`. -/
def jsIncludes (s sub : String) : Bool :=
  jsIncludesL sub.data s.data

/-- JavaScript `s.replace(pat, rep)` on char lists: replaces the first
occurrence of `pat` only, as the non-global `String.prototype.replace`
with a string pattern does. -/
def jsReplaceFirstL (pat rep : List Char) : List Char → List Char
  | [] => if pat.isEmpty then rep else []
  | c :: cs =>
    if jsStartsWithL pat (c :: cs) then rep ++ (c :: cs).drop pat.length
    else c :: jsReplaceFirstL pat rep cs

/-- JavaScript `s.replace(pat, rep)` (non-global, string pattern). -/
def jsReplaceFirst (s pat rep : String) : String :=
  ⟨jsReplaceFirstL pat.data rep.data s.data⟩

/-- Global, left-to-right, non-overlapping replacement of `pat` by `rep`
(JavaScript `s.replace(/pat/g, rep)` with a literal pattern), driven by
fuel so that it stays kernel-reducible. -/
def jsReplaceAllAux (pat rep : List Char) : Nat → List Char → List Char
  | 0, l => l
  | _ + 1, [] => []
  | fuel + 1, c :: cs =>
    if !pat.isEmpty && jsStartsWithL pat (c :: cs) then
      rep ++ jsReplaceAllAux pat rep fuel ((c :: cs).drop pat.length)
    else c :: jsReplaceAllAux pat rep fuel cs

/-- JavaScript `s.replace(/pat/g, rep)` with a literal string pattern. -/
def jsReplaceAll (s pat rep : String) : String :=
  ⟨jsReplaceAllAux pat.data rep.data s.data.length s.data⟩

/-- The characters JavaScript `parseInt` skips as leading whitespace. -/
def jsIsSpace (c : Char) : Bool :=
  c.toNat == 32 || c.toNat == 9 || c.toNat == 10 ||
  c.toNat == 13 || c.toNat == 11 || c.toNat == 12

/-- A decimal digit `0`–`9`. -/
def isDigitC (c : Char) : Bool :=
  48 ≤ c.toNat && c.toNat ≤ 57

/-- Value of a list of decimal digit characters, most significant first. -/
def parseDigitsL (cs : List Char) : Nat :=
  cs.foldl (fun a c => a * 10 + (c.toNat - 48)) 0

/-- JavaScript `parseInt(s, 10)`: skip leading whitespace, read an optional
sign and then the maximal run of decimal digits. `none` models the `NaN`
result produced when no digit is found. -/
def jsParseInt (s : String) : Option Int :=
  match s.data.dropWhile jsIsSpace with
  | [] => none
  | c :: rest =>
    let body := if c == '-' || c == '+' then rest else c :: rest
    let digits := body.takeWhile isDigitC
    if digits.isEmpty then none
    else some (if c == '-' then -(parseDigitsL digits : Int)
               else (parseDigitsL digits : Int))

/-! ## JSON values and `JSON.parse` -/

/-- A JSON value as `JSON.parse` produces it (numerals restricted to
integers, see the header comment). -/
inductive Json where
  | null : Json
  | bool (bv : Bool) : Json
  | num (iv : Int) : Json
  | str (sv : String) : Json
  | arr (elems : List Json) : Json
  | obj (fields : List (String × Json)) : Json

/-- First value bound to key `k` in an object's field list (the parser
below never produces a duplicate key, mirroring JavaScript objects). -/
def lookupField (k : String) : List (String × Json) → Option Json
  | [] => none
  | (k', v) :: rest => if k' == k then some v else lookupField k rest

/-- Assignment `o[k] = v` on a JavaScript object: overwrites in place when
the key exists (keeping its position), appends otherwise. -/
def jsSet (k : String) (v : Json) : List (String × Json) → List (String × Json)
  | [] => [(k, v)]
  | (k', v') :: rest =>
    if k' == k then (k, v) :: rest else (k', v') :: jsSet k v rest

/-- JavaScript property read `j?.k`: a field of an object, `undefined`
(here `none`) on everything else. -/
def jsGet (j : Json) (k : String) : Option Json :=
  match j with
  | .obj fs => lookupField k fs
  | _ => none

/-- JavaScript `j?.k1?.k2`. -/
def jsGet2 (j : Json) (k1 k2 : String) : Option Json :=
  match jsGet j k1 with
  | some v => jsGet v k2
  | none => none

/-- JavaScript truthiness of a JSON value. -/
def jsTruthy : Json → Bool
  | .null => false
  | .bool b => b
  | .num n => n != 0
  | .str s => !s.data.isEmpty
  | .arr _ => true
  | .obj _ => true

/-- JSON insignificant whitespace. -/
def jsonWs (c : Char) : Bool :=
  c == ' ' || c.toNat == 9 || c.toNat == 10 || c.toNat == 13

/-- Skip JSON whitespace. -/
def skipWs (cs : List Char) : List Char :=
  cs.dropWhile jsonWs

/-- Value of a hexadecimal digit character. -/
def hexVal (c : Char) : Option Nat :=
  if 48 ≤ c.toNat && c.toNat ≤ 57 then some (c.toNat - 48)
  else if 97 ≤ c.toNat && c.toNat ≤ 102 then some (c.toNat - 87)
  else if 65 ≤ c.toNat && c.toNat ≤ 70 then some (c.toNat - 55)
  else none

/-- The single-character JSON string escapes. -/
def escChar (c : Char) : Option Char :=
  match c.toNat with
  | 34 => some c
  | 92 => some c
  | 47 => some c
  | 98 => some (Char.ofNat 8)
  | 102 => some (Char.ofNat 12)
  | 110 => some (Char.ofNat 10)
  | 114 => some (Char.ofNat 13)
  | 116 => some (Char.ofNat 9)
  | _ => none

/-- Parse the body of a JSON string literal (the opening quote already
consumed): returns the decoded characters and the input after the closing
quote. -/
def parseStringBody : List Char → Option (List Char × List Char)
  | [] => none
  | c :: rest =>
    if c == '"' then some ([], rest)
    else if c == '\\' then
      match rest with
      | [] => none
      | e :: rest2 =>
        if e == 'u' then
          match rest2 with
          | a :: b :: c2 :: d :: rest3 =>
            match hexVal a, hexVal b, hexVal c2, hexVal d with
            | some ha, some hb, some hc, some hd =>
              match parseStringBody rest3 with
              | some (s, r) =>
                some (Char.ofNat (((ha * 16 + hb) * 16 + hc) * 16 + hd) :: s, r)
              | none => none
            | _, _, _, _ => none
          | _ => none
        else
          match escChar e with
          | some ec =>
            match parseStringBody rest2 with
            | some (s, r) => some (ec :: s, r)
            | none => none
          | none => none
    else if c.toNat < 32 then none
    else
      match parseStringBody rest with
      | some (s, r) => some (c :: s, r)
      | none => none

/-- Parse a JSON numeral (integer part only, see header comment). -/
def parseNumber (cs : List Char) : Option (Json × List Char) :=
  let signed : Bool × List Char :=
    match cs with
    | '-' :: rest => (true, rest)
    | _ => (false, cs)
  match signed.2 with
  | c :: _ =>
    if isDigitC c then
      let digits := signed.2.takeWhile isDigitC
      let rest := signed.2.dropWhile isDigitC
      if digits.length > 1 && digits.headD ' ' == '0' then none
      else
        match rest with
        | '.' :: _ => none
        | 'e' :: _ => none
        | 'E' :: _ => none
        | _ =>
          some (.num (if signed.1 then -(parseDigitsL digits : Int)
                      else (parseDigitsL digits : Int)), rest)
    else none
  | [] => none

/-- The parser's mode: a single value, the remaining elements of an array
(accumulator already parsed), or the remaining fields of an object. -/
inductive PMode where
  | val
  | elems (acc : List Json)
  | fields (acc : List (String × Json))

/-- Fuel-driven JSON parser (one recursive function so that the recursion
is structural on the fuel and kernel-reducible). -/
def parseJ : Nat → PMode → List Char → Option (Json × List Char)
  | 0, _, _ => none
  | fuel + 1, .val, cs0 =>
    let cs := skipWs cs0
    if jsStartsWithL "true".data cs then some (.bool true, cs.drop 4)
    else if jsStartsWithL "false".data cs then some (.bool false, cs.drop 5)
    else if jsStartsWithL "null".data cs then some (.null, cs.drop 4)
    else
      match cs with
      | [] => none
      | c :: rest =>
        if c == '\x7b' then
          match skipWs rest with
          | c2 :: rest2 => if c2 == '\x7d' then some (.obj [], rest2)
                           else parseJ fuel (.fields []) rest
          | [] => none
        else if c == '[' then
          match skipWs rest with
          | c2 :: rest2 => if c2 == ']' then some (.arr [], rest2)
                           else parseJ fuel (.elems []) rest
          | [] => none
        else if c == '"' then
          match parseStringBody rest with
          | some (sb, r) => some (.str ⟨sb⟩, r)
          | none => none
        else parseNumber cs
  | fuel + 1, .elems acc, cs =>
    match parseJ fuel .val cs with
    | some (v, rest) =>
      match skipWs rest with
      | c :: rest2 =>
        if c == ',' then parseJ fuel (.elems (acc ++ [v])) rest2
        else if c == ']' then some (.arr (acc ++ [v]), rest2)
        else none
      | [] => none
    | none => none
  | fuel + 1, .fields acc, cs =>
    match skipWs cs with
    | c :: rest =>
      if c == '"' then
        match parseStringBody rest with
        | some (kcs, rest2) =>
          match skipWs rest2 with
          | c2 :: rest3 =>
            if c2 == ':' then
              match parseJ fuel .val rest3 with
              | some (v, rest4) =>
                match skipWs rest4 with
                | c3 :: rest5 =>
                  if c3 == ',' then parseJ fuel (.fields (jsSet ⟨kcs⟩ v acc)) rest5
                  else if c3 == '\x7d' then some (.obj (jsSet ⟨kcs⟩ v acc), rest5)
                  else none
                | [] => none
              | none => none
            else none
          | [] => none
        | none => none
      else none
    | [] => none

/-- `JSON.parse`: `none` models the thrown `SyntaxError`. -/
def Json.parse (s : String) : Option Json :=
  match parseJ (2 * s.data.length + 4) .val s.data with
  | some (j, rest) => if (skipWs rest).isEmpty then some j else none
  | none => none

/-! ## Error classifier (`parseRetryDelay`, script `fix-async-hooks.js` 407–473)

The classifier receives `error.message`. Its JavaScript control flow:
an outer `try` whose `catch` falls through to `return DEFAULT_RETRY_DELAY`;
inside it `JSON.parse` of the message (on failure, `JSON.parse` of the
first-`{`-to-last-`}` slice, whose own failure throws to the outer catch);
the nested `error.message` string is cleaned of `\n` pairs and backslashes
and parsed again inside an inner `try` whose `catch` merely continues; the
`details` array is scanned for a `google.rpc.RetryInfo` record; finally a
regex fallback looks for `retryDelay"...":..."<digits>s"` in the raw text. -/

/-- The slice JavaScript `msg.match(/\x7b[\s\S]*\x7d/)` extracts: from the
first opening brace to the last closing brace, when the latter comes
later. -/
def extractBraces (msg : String) : Option String :=
  match msg.data.findIdx? (fun c => c == '\x7b'),
        msg.data.reverse.findIdx? (fun c => c == '\x7d') with
  | some i, some rj =>
    let j := msg.data.length - 1 - rj
    if i < j then some ⟨(msg.data.drop i).take (j - i + 1)⟩ else none
  | _, _ => none

/-- `innerErrorStr.replace(/\\n/g, "")`: remove every (left-to-right,
non-overlapping) two-character backslash–`n` pair. -/
def stripBackslashN : List Char → List Char
  | [] => []
  | '\\' :: 'n' :: rest => stripBackslashN rest
  | c :: rest => c :: stripBackslashN rest

/-- The cleanup the script applies to the embedded JSON string before the
inner parse: `.replace(/\\n/g, "").replace(/\\/g, "")`. -/
def cleanupInner (s : String) : String :=
  ⟨(stripBackslashN s.data).filter (fun c => !(c == '\\'))⟩

/-- Try the fallback regex
`retryDelay["']\s*:\s*["'](\d+)s["']` at the head of `cs`. -/
def retryPatHere (cs : List Char) : Option Nat :=
  if jsStartsWithL "retryDelay".data cs then
    match cs.drop 10 with
    | q1 :: cs2 =>
      if q1 == '"' || q1 == '\x27' then
        match cs2.dropWhile jsIsSpace with
        | ':' :: cs4 =>
          (match cs4.dropWhile jsIsSpace with
           | q2 :: cs6 =>
             if q2 == '"' || q2 == '\x27' then
               let digits := cs6.takeWhile isDigitC
               if digits.isEmpty then none
               else
                 match cs6.dropWhile isDigitC with
                 | 's' :: q3 :: _ =>
                   if q3 == '"' || q3 == '\x27' then some (parseDigitsL digits)
                   else none
                 | _ => none
             else none
           | [] => none)
        | _ => none
      else none
    | [] => none
  else none

/-- Leftmost match of the fallback regex over the whole message. -/
def regexScan : List Char → Option Nat
  | [] => none
  | c :: cs =>
    match retryPatHere (c :: cs) with
    | some d => some d
    | none => regexScan cs

/-- The `errorMessage.match(/retryDelay["']\s*:\s*["'](\d+)s["']/)`
fallback, yielding `parseInt` of the captured digits. -/
def regexFallback (msg : String) : Option Nat :=
  regexScan msg.data

/-- Outcome of the structured part of the classifier's `try` body:
an early `return` (whose value is `none` when `parseInt` produced `NaN`),
an exception escaping to the outer `catch`, or falling through to the
regex fallback. -/
inductive StructOut where
  | ret (d : Option Int)
  | thrown
  | fallthrough

/-- Outcome of the `for (const detail of details)` loop: the `retryDelay`
string of the first matching `RetryInfo` record, an aborting `TypeError`
(a truthy non-string `retryDelay`, caught by the inner `catch`), or no
match. -/
inductive LoopOut where
  | found (s : String)
  | abort
  | notFound

/-- `detail["@type"] === "type.googleapis.com/google.rpc.RetryInfo"`. -/
def isRetryInfo (d : Json) : Bool :=
  match jsGet d "@type" with
  | some (.str t) => t == "type.googleapis.com/google.rpc.RetryInfo"
  | _ => false

/-- The scan of the `details` array for a `RetryInfo` record carrying a
truthy `retryDelay`. A `null` array element aborts the scan: the loop
body's `detail["@type"]` read throws a `TypeError` on `null`, which the
inner `catch` swallows (so classification falls back to the regex and
then the default). Property reads on the other JSON shapes (numbers,
strings, booleans, arrays, objects) yield `undefined` without throwing,
so those elements are merely skipped. -/
def scanDetails : List Json → LoopOut
  | [] => .notFound
  | .null :: _ => .abort
  | d :: rest =>
    if isRetryInfo d &&
       (match jsGet d "retryDelay" with
        | some v => jsTruthy v
        | none => false) then
      match jsGet d "retryDelay" with
      | some (.str s) => .found s
      | _ => .abort
    else scanDetails rest

/-- Handling of the successfully parsed inner error document:
`null.error` throws inside the inner `try` (so falls through), otherwise
the `details` array, if present, is scanned. -/
def innerDetails (inner : Json) : StructOut :=
  match inner with
  | .null => .fallthrough
  | _ =>
    match jsGet2 inner "error" "details" with
    | some (.arr ds) =>
      match scanDetails ds with
      | .found s => .ret (jsParseInt (jsReplaceFirst s "s" ""))
      | .abort => .fallthrough
      | .notFound => .fallthrough
    | _ => .fallthrough

/-- Handling of the parsed outer document: `outerError?.error?.message`
must be truthy; `.replace` on a truthy non-string throws to the outer
catch; the cleaned string is parsed inside the inner `try`. -/
def handleOuter (outer : Json) : StructOut :=
  match jsGet2 outer "error" "message" with
  | some v =>
    if jsTruthy v then
      match v with
      | .str s =>
        match Json.parse (cleanupInner s) with
        | some inner => innerDetails inner
        | none => .fallthrough
      | _ => .thrown
    else .fallthrough
  | none => .fallthrough

/-- The structured part of `parseRetryDelay`: outer `JSON.parse`, with the
brace-slice retry whose parse failure throws to the outer catch (skipping
the regex fallback). -/
def structuredResult (msg : String) : StructOut :=
  match Json.parse msg with
  | some outer => handleOuter outer
  | none =>
    match extractBraces msg with
    | none => .fallthrough
    | some sub =>
      match Json.parse sub with
      | some outer => handleOuter outer
      | none => .thrown

/-- `DEFAULT_RETRY_DELAY = 60` (script `fix-async-hooks.js` line 270). -/
def DEFAULT_RETRY_DELAY : Int := 60

/-- `parseRetryDelay(error)` over `error.message`. The result is a
JavaScript number; `none` models `NaN`. Every throwing path of the
source lands in a `catch` that reaches `return DEFAULT_RETRY_DELAY`, so
the model is a total function: classification cannot crash the caller. -/
def parseRetryDelay (msg : String) : Option Int :=
  match structuredResult msg with
  | .ret d => d
  | .thrown => some DEFAULT_RETRY_DELAY
  | .fallthrough =>
    match regexFallback msg with
    | some d => some (d : Int)
    | none => some DEFAULT_RETRY_DELAY

/-! ## Retry controller (`generateIcon`, script `fix-async-hooks.js` 563–684) -/

/-- `MAX_RETRIES = 3` (script `fix-async-hooks.js` line 269). -/
def MAX_RETRIES : Nat := 3

/-- The 429 test of `generateIcon`'s catch block:
`error.message.includes("429") || includes("Too Many Requests") ||
includes("rate limit")`. -/
def is429 (msg : String) : Bool :=
  jsIncludes msg "429" || jsIncludes msg "Too Many Requests" ||
  jsIncludes msg "rate limit"

/-- The classifier's verdict for one failed attempt (spec §4.2): retry
after a delay (a JavaScript number, `none` = `NaN`), or stop with the
error message as reason. -/
inductive RetryVerdict where
  | retryAfter (seconds : Option Int)
  | stop (reason : String)

/-- The classification step embedded in `generateIcon`'s catch block
(lines 648–672): a 429-looking failure within the retry budget retries
after `parseRetryDelay`, everything else rethrows. -/
def classify (msg : String) (retryCount : Nat) : RetryVerdict :=
  if is429 msg ∧ retryCount < MAX_RETRIES then .retryAfter (parseRetryDelay msg)
  else .stop msg

/-- Outcome of one adapter invocation: the generated filename, or the
thrown error's message. -/
inductive AttemptOutcome where
  | success (filename : String)
  | failure (msg : String)

/-- `generateIcon(prompt, retryCount)` with the environment's outcome of
attempt number `n` supplied as `env n`. Returns the terminal result
(`Except.error` models the rethrown last error) together with how many
times the backend was invoked from this call on. -/
def generateIconFrom (env : Nat → AttemptOutcome) (retryCount : Nat) :
    Except String String × Nat :=
  match env retryCount with
  | .success f => (.ok f, 1)
  | .failure m =>
    if h : is429 m = true ∧ retryCount < MAX_RETRIES then
      let r := generateIconFrom env (retryCount + 1)
      (r.1, r.2 + 1)
    else (.error m, 1)
termination_by MAX_RETRIES - retryCount
decreasing_by omega

/-! ## Helpers for stating C2 (decimal rendering of the declared delay) -/

/-- Decimal digit character of `d < 10`. -/
def digitChar48 (d : Nat) : Char := Char.ofNat (48 + d)

/-- Fuel-driven most-significant-first decimal rendering. -/
def decimalAux : Nat → Nat → List Char
  | 0, _ => []
  | fuel + 1, n =>
    if n < 10 then [digitChar48 n]
    else decimalAux fuel (n / 10) ++ [digitChar48 (n % 10)]

/-- Canonical decimal rendering of a natural number, used to state that a
diagnostic "declares a delay of `d` seconds" as the string `d ++ "s"`. -/
def decimalStr (n : Nat) : String := ⟨decimalAux (n + 1) n⟩

/-! ## Flux script (`generate-flux-images.js`) -/

/-- `ensureProtocol` (lines 91–96): prepend `https://` when the URL starts
with neither scheme. -/
def ensureProtocol (url : String) : String :=
  if !jsStartsWith url "http://" && !jsStartsWith url "https://" then
    "https://" ++ url
  else url

/-- `generateFilename(type, prefix)` (lines 190–193). The timestamp the
source derives from the clock (`new Date().toISOString()` with `:`/`.`
replaced by `-`) is passed in explicitly. -/
def generateFilename (ty pre timestamp : String) : String :=
  pre ++ "-" ++ ty ++ "-" ++ timestamp ++ ".png"

/-- The three logical asset slots. -/
inductive Slot where
  | icon
  | embed
  | splash
deriving DecidableEq

/-- The filenames handed to `updateFarcasterConfig`. -/
structure ImageFilenames where
  icon : String
  embed : String
  splash : String

/-- `domain.replace(/^https?:\/\//, "")` (line 408). -/
def stripProtocol (domain : String) : String :=
  if jsStartsWith domain "https://" then ⟨domain.data.drop 8⟩
  else if jsStartsWith domain "http://" then ⟨domain.data.drop 7⟩
  else domain

/-- The conditional overwrite `if (config.miniapp.K) config.miniapp.K = v`
used for `iconUrl`, `imageUrl` and `splashImageUrl`. -/
def setIfTruthy (k : String) (newV : Json) (fs : List (String × Json)) :
    List (String × Json) :=
  match lookupField k fs with
  | some v => if jsTruthy v then jsSet k newV fs else fs
  | none => fs

/-- The `homeUrl` update (lines 428–432): overwrite only when the current
value contains the placeholder domain. `.includes`/`.replace` on a truthy
non-string value throws a `TypeError` (`Except.error`), except that an
array supports `.includes` (element identity against the placeholder
string) and only reaches the throwing `.replace` when that test is true. -/
def updateHomeUrl (cleanDomain : String) (fs : List (String × Json)) :
    Except Unit (List (String × Json)) :=
  match lookupField "homeUrl" fs with
  | some v =>
    if jsTruthy v then
      match v with
      | .str s =>
        .ok (if jsIncludes s "your-domain.com" then
               jsSet "homeUrl"
                 (.str (jsReplaceAll s "https://your-domain.com"
                   ("https://" ++ cleanDomain))) fs
             else fs)
      | .arr xs =>
        if xs.any (fun j => match j with
                            | .str s => s == "your-domain.com"
                            | _ => false) then .error ()
        else .ok fs
      | _ => .error ()
    else .ok fs
  | none => .ok fs

/-- The four field updates applied to `config.miniapp` (lines 419–447). -/
def updateMiniapp (mf : List (String × Json))
    (iconUrl embedUrl splashUrl cleanDomain : String) :
    Except Unit (List (String × Json)) :=
  let mf1 := setIfTruthy "iconUrl" (.str iconUrl) mf
  match updateHomeUrl cleanDomain mf1 with
  | .error e => .error e
  | .ok mf2 =>
    let mf3 := setIfTruthy "imageUrl" (.str embedUrl) mf2
    .ok (setIfTruthy "splashImageUrl" (.str splashUrl) mf3)

/-- The whole-document update `updateFarcasterConfig` performs on the
parsed configuration: `config.miniapp` on `null` throws, a document whose
`miniapp` is not an object passes through unchanged. -/
def applyConfigUpdates (config : Json)
    (iconUrl embedUrl splashUrl cleanDomain : String) : Except Unit Json :=
  match config with
  | .null => .error ()
  | .obj tf =>
    match lookupField "miniapp" tf with
    | some (.obj mf) =>
      match updateMiniapp mf iconUrl embedUrl splashUrl cleanDomain with
      | .ok mf2 => .ok (.obj (jsSet "miniapp" (.obj mf2) tf))
      | .error e => .error e
    | _ => .ok (.obj tf)
  | other => .ok other

/-- `updateFarcasterConfig(domain, imageFilenames)` (lines 394–469).
`file` is the configuration document's content (`none` = `existsSync`
false), `writable` whether `writeFileSync` succeeds. Returns the
function's boolean result together with the document written back
(`none` = nothing written): a missing file returns `false` early, a
`JSON.parse` failure or a `TypeError` during the update or a failing
write land in the `catch` and return `false`, and a successful write
returns `true` whether or not any field changed. -/
def updateFarcasterConfig (file : Option String) (writable : Bool)
    (domain : String) (fns : ImageFilenames) : Bool × Option Json :=
  match file with
  | none => (false, none)
  | some content =>
    match Json.parse content with
    | none => (false, none)
    | some config =>
      let cleanDomain := stripProtocol domain
      match applyConfigUpdates config
          ("https://" ++ cleanDomain ++ "/images/" ++ fns.icon)
          ("https://" ++ cleanDomain ++ "/images/" ++ fns.embed)
          ("https://" ++ cleanDomain ++ "/images/" ++ fns.splash)
          cleanDomain with
      | .error _ => (false, none)
      | .ok newConfig => if writable then (true, some newConfig) else (false, none)

/-! ## The run of `generateImage` (lines 474–657) -/

/-- Environment of one run: the outcome of each slot's generation call
(`none` = the call throws) and the state of `farcaster.json`. -/
structure FluxEnv where
  iconOutcome : Option String
  embedOutcome : Option String
  splashOutcome : Option String
  configFile : Option String
  configWritable : Bool

/-- Terminal state of a run: completed with the three artifact filenames
and the configuration-sync result, or aborted by `process.exit(1)` from
the outer catch. -/
inductive RunOutcome where
  | completed (icon embed splash : String) (configUpdated : Bool)
      (newConfig : Option Json)
  | aborted

/-- `generateImage()` after its environment-variable validation (an unset
domain exits before any slot): the icon, embed and splash generations run
in order inside one `try`; the first throw reaches the catch, which calls
`process.exit(1)`. Returns the outcome together with the list of slots
whose generation was attempted. -/
def generateImageRun (domain : String) (env : FluxEnv) :
    RunOutcome × List Slot :=
  if domain.isEmpty then (.aborted, [])
  else
    match env.iconOutcome with
    | none => (.aborted, [.icon])
    | some i =>
      match env.embedOutcome with
      | none => (.aborted, [.icon, .embed])
      | some e =>
        match env.splashOutcome with
        | none => (.aborted, [.icon, .embed, .splash])
        | some s =>
          let u := updateFarcasterConfig env.configFile env.configWritable
            domain ⟨i, e, s⟩
          (.completed i e s u.1 u.2, [.icon, .embed, .splash])

/-! ## Concrete inputs used by the closed witness theorems -/

/-- The inner error document of a Gemini 429 payload, as the string value
carried by the outer document's `error.message` field. -/
def msgStructuredInner : String :=
  "\x7b\"error\":\x7b\"details\":[\x7b\"@type\":\"type.googleapis.com/google.rpc.RetryInfo\",\"retryDelay\":\"30s\"\x7d]\x7d\x7d"

/-- A structured Gemini failure diagnostic: the outer JSON embeds
`msgStructuredInner` one level deep as a JSON-encoded string. -/
def msgStructured : String :=
  "\x7b\"error\":\x7b\"code\":429,\"message\":\"\x7b\\\"error\\\":\x7b\\\"details\\\":[\x7b\\\"@type\\\":\\\"type.googleapis.com/google.rpc.RetryInfo\\\",\\\"retryDelay\\\":\\\"30s\\\"\x7d]\x7d\x7d\"\x7d\x7d"

/-- The `RetryInfo` detail record of `msgStructuredInner`. -/
def retryDetail : Json :=
  .obj [("@type", .str "type.googleapis.com/google.rpc.RetryInfo"),
        ("retryDelay", .str "30s")]

/-- `msgStructuredInner` parsed. -/
def innerTree : Json :=
  .obj [("error", .obj [("details", .arr [retryDetail])])]

/-- `msgStructured` parsed. -/
def outerTree : Json :=
  .obj [("error", .obj [("code", .num 429), ("message", .str msgStructuredInner)])]

/-- An inner error document whose `details` array carries a `null` element
in front of a well-formed `RetryInfo` record declaring 30 seconds. -/
def msgNullInner : String :=
  "\x7b\"error\":\x7b\"details\":[null,\x7b\"@type\":\"type.googleapis.com/google.rpc.RetryInfo\",\"retryDelay\":\"30s\"\x7d]\x7d\x7d"

/-- A structured diagnostic embedding `msgNullInner` one level deep: it
contains a `RetryInfo` record declaring 30 seconds, but the loop hits the
`null` element first. -/
def msgNullStructured : String :=
  "\x7b\"error\":\x7b\"code\":429,\"message\":\"\x7b\\\"error\\\":\x7b\\\"details\\\":[null,\x7b\\\"@type\\\":\\\"type.googleapis.com/google.rpc.RetryInfo\\\",\\\"retryDelay\\\":\\\"30s\\\"\x7d]\x7d\x7d\"\x7d\x7d"

/-- `msgNullInner` parsed. -/
def innerNullTree : Json :=
  .obj [("error", .obj [("details", .arr [Json.null, retryDetail])])]

/-- `msgNullStructured` parsed. -/
def outerNullTree : Json :=
  .obj [("error", .obj [("code", .num 429), ("message", .str msgNullInner)])]

/-- A `farcaster.json` document whose `miniapp` object and top level both
carry fields the synchronizer does not know about. -/
def cfgUnknownField : String :=
  "\x7b\"version\":\"1\",\"custom\":42,\"miniapp\":\x7b\"name\":\"App\",\"iconUrl\":\"https://old.example/icon.png\",\"extra\":true\x7d\x7d"

/-- The `miniapp` object of `cfgUnknownField`, parsed. -/
def mfDemo : List (String × Json) :=
  [("name", .str "App"), ("iconUrl", .str "https://old.example/icon.png"),
   ("extra", .bool true)]

/-- `cfgUnknownField`, parsed. -/
def tfDemo : List (String × Json) :=
  [("version", .str "1"), ("custom", .num 42), ("miniapp", .obj mfDemo)]

/-- An empty JSON document. -/
def cfgEmpty : String := "\x7b\x7d"

/-- Demo artifact filenames. -/
def fnsDemo : ImageFilenames :=
  ⟨"flux-icon-t.png", "screenshot-embed-t.png", "screenshot-splash-t.png"⟩

/-! ## Shared helper lemmas -/

lemma jsStartsWithL_self_append (p t : List Char) : jsStartsWithL p (p ++ t) = true := by
  induction p with
  | nil => rfl
  | cons c cs ih => simp [jsStartsWithL, ih]

lemma append_cons_ne_of_ne {c d : Char} (hcd : c ≠ d) :
    ∀ (p a b : List Char), p ++ c :: a ≠ p ++ d :: b := by
  intro p
  induction p with
  | nil =>
    intro a b h
    injection h with h1 _
    exact hcd h1
  | cons x xs ih =>
    intro a b h
    injection h with _ h2
    exact ih a b h2

/-- C10: `ensureProtocol` always yields a URL carrying a scheme, and is
idempotent. -/
theorem ensureProtocol_scheme_and_idempotent (url : String) :
    (jsStartsWith (ensureProtocol url) "http://" = true ∨
     jsStartsWith (ensureProtocol url) "https://" = true) ∧
    ensureProtocol (ensureProtocol url) = ensureProtocol url := by
  have happ : jsStartsWith ("https://" ++ url) "https://" = true := by
    show jsStartsWithL "https://".data ("https://".data ++ url.data) = true
    exact jsStartsWithL_self_append _ _
  by_cases h1 : jsStartsWith url "http://" = true
  · have he : ensureProtocol url = url := by simp [ensureProtocol, h1]
    rw [he]
    exact ⟨Or.inl h1, he⟩
  · by_cases h2 : jsStartsWith url "https://" = true
    · have he : ensureProtocol url = url := by simp [ensureProtocol, h2]
      rw [he]
      exact ⟨Or.inr h2, he⟩
    · have he : ensureProtocol url = "https://" ++ url := by
        simp [ensureProtocol, h1, h2]
      rw [he]
      exact ⟨Or.inr happ, by simp [ensureProtocol, happ]⟩

/-- C9: within one run of the flux script the three slots produce pairwise
distinct filenames, whatever timestamps the clock yields: the slot tag and
the provider tag are embedded in the name. -/
theorem generateFilename_pairwise_distinct (t1 t2 t3 : String) :
    generateFilename "icon" "flux" t1 ≠ generateFilename "embed" "screenshot" t2 ∧
    generateFilename "icon" "flux" t1 ≠ generateFilename "splash" "screenshot" t3 ∧
    generateFilename "embed" "screenshot" t2 ≠ generateFilename "splash" "screenshot" t3 := by
  have e1 : (generateFilename "icon" "flux" t1).data =
      [] ++ 'f' :: ("lux-icon-".data ++ (t1.data ++ ".png".data)) := rfl
  have e2 : (generateFilename "embed" "screenshot" t2).data =
      [] ++ 's' :: ("creenshot-embed-".data ++ (t2.data ++ ".png".data)) := rfl
  have e3 : (generateFilename "splash" "screenshot" t3).data =
      [] ++ 's' :: ("creenshot-splash-".data ++ (t3.data ++ ".png".data)) := rfl
  have e2' : (generateFilename "embed" "screenshot" t2).data =
      "screenshot-".data ++ 'e' :: ("mbed-".data ++ (t2.data ++ ".png".data)) := rfl
  have e3' : (generateFilename "splash" "screenshot" t3).data =
      "screenshot-".data ++ 's' :: ("plash-".data ++ (t3.data ++ ".png".data)) := rfl
  refine ⟨?_, ?_, ?_⟩
  · intro h
    have hd := congrArg String.data h
    rw [e1, e2] at hd
    exact append_cons_ne_of_ne (by decide) [] _ _ hd
  · intro h
    have hd := congrArg String.data h
    rw [e1, e3] at hd
    exact append_cons_ne_of_ne (by decide) [] _ _ hd
  · intro h
    have hd := congrArg String.data h
    rw [e2', e3'] at hd
    exact append_cons_ne_of_ne (by decide) "screenshot-".data _ _ hd

/-! ## Classifier: default-delay behaviour (C4, C5) -/

lemma parseRetryDelay_default_of (msg : String)
    (h1 : ∀ r, structuredResult msg ≠ StructOut.ret r)
    (h2 : regexFallback msg = none) :
    parseRetryDelay msg = some DEFAULT_RETRY_DELAY := by
  unfold parseRetryDelay
  cases hs : structuredResult msg with
  | ret r => exact absurd hs (h1 r)
  | thrown => rfl
  | fallthrough => rw [h2]

/-- C4: classification is a total function (every throwing path of the
source lands in a `catch`, see `parseRetryDelay`), and an input from
which no structured retry-delay record can be extracted — neither by the
nested JSON walk nor by the regex fallback — yields the default delay. -/
theorem parseRetryDelay_never_crashes_defaults (msg : String)
    (h1 : ∀ r, structuredResult msg ≠ StructOut.ret r)
    (h2 : regexFallback msg = none) :
    parseRetryDelay msg = some DEFAULT_RETRY_DELAY :=
  parseRetryDelay_default_of msg h1 h2

theorem parseRetryDelay_never_crashes_defaults_witness :
    parseRetryDelay "Internal server error" = some DEFAULT_RETRY_DELAY :=
  parseRetryDelay_never_crashes_defaults "Internal server error"
    (fun _ h => by
      rw [show structuredResult "Internal server error" = StructOut.fallthrough
            from rfl] at h
      exact StructOut.noConfusion h)
    rfl

/-- C5: a plain HTTP 429 diagnostic with no structured retry-delay record
is classified `RetryAfter` of the default delay, and that default is 60
seconds. -/
theorem classify_plain_429_default (msg : String) (rc : Nat)
    (h429 : is429 msg = true) (hrc : rc < MAX_RETRIES)
    (h1 : ∀ r, structuredResult msg ≠ StructOut.ret r)
    (h2 : regexFallback msg = none) :
    classify msg rc = .retryAfter (some DEFAULT_RETRY_DELAY) ∧
    DEFAULT_RETRY_DELAY = 60 := by
  refine ⟨?_, rfl⟩
  unfold classify
  rw [if_pos ⟨h429, hrc⟩, parseRetryDelay_default_of msg h1 h2]

theorem classify_plain_429_default_witness :
    classify "429 Too Many Requests" 0 = .retryAfter (some DEFAULT_RETRY_DELAY) ∧
    DEFAULT_RETRY_DELAY = 60 :=
  classify_plain_429_default "429 Too Many Requests" 0 rfl (by decide)
    (fun _ h => by
      rw [show structuredResult "429 Too Many Requests" = StructOut.fallthrough
            from rfl] at h
      exact StructOut.noConfusion h)
    rfl

lemma generateIconFrom_success (env : Nat → AttemptOutcome) (rc : Nat) (f : String)
    (h : env rc = .success f) : generateIconFrom env rc = (.ok f, 1) := by
  rw [generateIconFrom, h]

lemma generateIconFrom_retry (env : Nat → AttemptOutcome) (rc : Nat) (m : String)
    (h : env rc = .failure m) (hc : is429 m = true ∧ rc < MAX_RETRIES) :
    generateIconFrom env rc =
      ((generateIconFrom env (rc + 1)).1, (generateIconFrom env (rc + 1)).2 + 1) := by
  rw [generateIconFrom, h]
  exact dif_pos hc

lemma generateIconFrom_stop (env : Nat → AttemptOutcome) (rc : Nat) (m : String)
    (h : env rc = .failure m) (hc : ¬(is429 m = true ∧ rc < MAX_RETRIES)) :
    generateIconFrom env rc = (.error m, 1) := by
  rw [generateIconFrom, h]
  exact dif_neg hc

lemma generateIconFrom_count_le :
    ∀ (k rc : Nat) (env : Nat → AttemptOutcome), MAX_RETRIES - rc < k →
      (generateIconFrom env rc).2 ≤ MAX_RETRIES - rc + 1 := by
  intro k
  induction k with
  | zero => intro rc env h; omega
  | succ k ih =>
    intro rc env h
    cases henv : env rc with
    | success f => rw [generateIconFrom_success env rc f henv]; omega
    | failure m =>
      by_cases hc : is429 m = true ∧ rc < MAX_RETRIES
      · obtain ⟨h429m, hrcM⟩ := hc
        rw [generateIconFrom_retry env rc m henv ⟨h429m, hrcM⟩]
        have hrec := ih (rc + 1) env (by omega)
        show (generateIconFrom env (rc + 1)).2 + 1 ≤ MAX_RETRIES - rc + 1
        omega
      · rw [generateIconFrom_stop env rc m henv hc]; omega

lemma generateIconFrom_last :
    ∀ (k rc : Nat) (env : Nat → AttemptOutcome), MAX_RETRIES - rc < k →
      (∃ f, (generateIconFrom env rc).1 = .ok f ∧
        env (rc + (generateIconFrom env rc).2 - 1) = .success f) ∨
      (∃ m, (generateIconFrom env rc).1 = .error m ∧
        env (rc + (generateIconFrom env rc).2 - 1) = .failure m) := by
  intro k
  induction k with
  | zero => intro rc env h; omega
  | succ k ih =>
    intro rc env h
    cases henv : env rc with
    | success f =>
      rw [generateIconFrom_success env rc f henv]
      left
      exact ⟨f, rfl, by simpa using henv⟩
    | failure m =>
      by_cases hc : is429 m = true ∧ rc < MAX_RETRIES
      · obtain ⟨h429m, hrcM⟩ := hc
        rw [generateIconFrom_retry env rc m henv ⟨h429m, hrcM⟩]
        rcases ih (rc + 1) env (by omega) with ⟨f, h1, h2⟩ | ⟨m', h1, h2⟩
        · left
          refine ⟨f, h1, ?_⟩
          show env (rc + ((generateIconFrom env (rc + 1)).2 + 1) - 1) = .success f
          rw [show rc + ((generateIconFrom env (rc + 1)).2 + 1) - 1
                = rc + 1 + (generateIconFrom env (rc + 1)).2 - 1 from by omega]
          exact h2
        · right
          refine ⟨m', h1, ?_⟩
          show env (rc + ((generateIconFrom env (rc + 1)).2 + 1) - 1) = .failure m'
          rw [show rc + ((generateIconFrom env (rc + 1)).2 + 1) - 1
                = rc + 1 + (generateIconFrom env (rc + 1)).2 - 1 from by omega]
          exact h2
      · rw [generateIconFrom_stop env rc m henv hc]
        right
        exact ⟨m, rfl, by simpa using henv⟩

/-- C3: for every sequence of adapter outcomes, `generateIcon` invokes the
backend at most `MAX_RETRIES + 1 = 4` times in total (1 initial attempt
plus `MAX_RETRIES = 3` retries) and terminates with either the success or
the failure message of the last attempt made. -/
theorem retryController_bounded_terminal (env : Nat → AttemptOutcome) :
    (generateIconFrom env 0).2 ≤ MAX_RETRIES + 1 ∧
    (generateIconFrom env 0).2 ≤ 4 ∧
    ((∃ f, (generateIconFrom env 0).1 = .ok f ∧
        env ((generateIconFrom env 0).2 - 1) = .success f) ∨
     (∃ m, (generateIconFrom env 0).1 = .error m ∧
        env ((generateIconFrom env 0).2 - 1) = .failure m)) := by
  have hM : MAX_RETRIES = 3 := rfl
  have h1 := generateIconFrom_count_le (MAX_RETRIES + 1) 0 env (by omega)
  have h2 := generateIconFrom_last (MAX_RETRIES + 1) 0 env (by omega)
  simp only [Nat.zero_add] at h2
  exact ⟨by omega, by omega, h2⟩

/-! ## C2: a structured retry-delay record is honoured exactly -/

lemma digitChar48_toNat (d : Nat) (h : d < 10) : (digitChar48 d).toNat = 48 + d := by
  interval_cases d <;> rfl

lemma decimalAux_digits :
    ∀ (fuel n : Nat), ∀ c ∈ decimalAux fuel n, 48 ≤ c.toNat ∧ c.toNat ≤ 57 := by
  intro fuel
  induction fuel with
  | zero => intro n c hc; simp [decimalAux] at hc
  | succ fuel ih =>
    intro n c hc
    rw [decimalAux] at hc
    split at hc
    · next hn =>
      simp at hc
      subst hc
      rw [digitChar48_toNat n hn]
      omega
    · rcases List.mem_append.mp hc with hmem | hmem
      · exact ih (n / 10) c hmem
      · simp at hmem
        subst hmem
        rw [digitChar48_toNat (n % 10) (by omega)]
        omega

lemma decimalAux_value :
    ∀ (fuel n : Nat), n < 10 ^ fuel → parseDigitsL (decimalAux fuel n) = n := by
  intro fuel
  induction fuel with
  | zero => intro n h; simp at h; simp [h, decimalAux, parseDigitsL]
  | succ fuel ih =>
    intro n h
    rw [decimalAux]
    split
    · next hn => simp [parseDigitsL, digitChar48_toNat n hn]
    · next hn =>
      have hdiv : n / 10 < 10 ^ fuel := by
        have hp : (10 : Nat) ^ (fuel + 1) = 10 ^ fuel * 10 := pow_succ 10 fuel
        omega
      have hrec := ih (n / 10) hdiv
      simp only [parseDigitsL, List.foldl_append, List.foldl_cons, List.foldl_nil]
      rw [show (decimalAux fuel (n / 10)).foldl (fun a c => a * 10 + (c.toNat - 48)) 0
            = parseDigitsL (decimalAux fuel (n / 10)) from rfl, hrec,
          digitChar48_toNat (n % 10) (by omega)]
      omega

lemma decimalAux_ne_nil (fuel n : Nat) (h : 0 < fuel) : decimalAux fuel n ≠ [] := by
  cases fuel with
  | zero => omega
  | succ fuel =>
    rw [decimalAux]
    split
    · simp
    · simp

lemma decimalStr_digits : ∀ c ∈ (decimalStr n).data, isDigitC c = true := by
  intro c hc
  have := decimalAux_digits (n + 1) n c hc
  simp [isDigitC]
  omega

lemma replaceFirst_digits (A : List Char) (hA : ∀ c ∈ A, isDigitC c = true) :
    jsReplaceFirstL ['s'] [] (A ++ ['s']) = A := by
  induction A with
  | nil => rfl
  | cons c cs ih =>
    have hc : isDigitC c = true := hA c (by simp)
    have hcs : ('s' == c) = false := by
      simp [isDigitC] at hc
      have : c ≠ 's' := by
        intro he
        rw [he] at hc
        simp at hc
      exact beq_eq_false_iff_ne.mpr (Ne.symm this)
    show jsReplaceFirstL ['s'] [] (c :: (cs ++ ['s'])) = c :: cs
    rw [jsReplaceFirstL]
    simp only [jsStartsWithL, hcs, Bool.false_and, if_neg Bool.false_ne_true]
    rw [ih (fun c' hc' => hA c' (by simp [hc']))]

lemma takeWhile_all (p : Char → Bool) :
    ∀ (l : List Char), (∀ c ∈ l, p c = true) → l.takeWhile p = l := by
  intro l
  induction l with
  | nil => intro _; rfl
  | cons c cs ih =>
    intro h
    rw [List.takeWhile_cons, if_pos (h c (by simp))]
    rw [ih (fun c' hc' => h c' (by simp [hc']))]

lemma jsParseInt_digits (A : List Char) (hne : A ≠ []) (hA : ∀ c ∈ A, isDigitC c = true) :
    jsParseInt ⟨A⟩ = some (parseDigitsL A : Int) := by
  obtain ⟨c, cs, rfl⟩ : ∃ c cs, A = c :: cs := by
    cases A with
    | nil => exact absurd rfl hne
    | cons c cs => exact ⟨c, cs, rfl⟩
  have hc : isDigitC c = true := hA c (by simp)
  have hcn : 48 ≤ c.toNat ∧ c.toNat ≤ 57 := by simpa [isDigitC] using hc
  have hsp : jsIsSpace c = false := by
    simp only [jsIsSpace, Bool.or_eq_false_iff, beq_eq_false_iff_ne]
    omega
  have hminus : (c == '-') = false := by
    refine beq_eq_false_iff_ne.mpr ?_
    intro he
    rw [he] at hcn
    exact absurd hcn (by decide)
  have hplus : (c == '+') = false := by
    refine beq_eq_false_iff_ne.mpr ?_
    intro he
    rw [he] at hcn
    exact absurd hcn (by decide)
  have hdw : (c :: cs).dropWhile jsIsSpace = c :: cs := by
    rw [List.dropWhile_cons, if_neg (by simp [hsp])]
  unfold jsParseInt
  rw [show (String.mk (c :: cs)).data.dropWhile jsIsSpace = c :: cs from hdw]
  simp only [hminus, hplus, Bool.or_self, Bool.false_or, if_neg (by simp : ¬((false : Bool) = true))]
  rw [takeWhile_all isDigitC (c :: cs) hA]
  simp

lemma parseInt_replace_decimal (d : Nat) :
    jsParseInt (jsReplaceFirst (decimalStr d ++ "s") "s" "") = some ((d : Nat) : Int) := by
  have hA : ∀ c ∈ (decimalStr d).data, isDigitC c = true := decimalStr_digits
  have hrf : jsReplaceFirstL ['s'] [] ((decimalStr d).data ++ ['s']) = (decimalStr d).data :=
    replaceFirst_digits _ hA
  have hstep : jsReplaceFirst (decimalStr d ++ "s") "s" "" = ⟨(decimalStr d).data⟩ := by
    show (⟨jsReplaceFirstL "s".data "".data (decimalStr d ++ "s").data⟩ : String) = _
    rw [show (decimalStr d ++ "s").data = (decimalStr d).data ++ ['s'] from rfl,
        show "s".data = ['s'] from rfl, show "".data = ([] : List Char) from rfl, hrf]
  rw [hstep]
  rw [jsParseInt_digits ((decimalStr d).data)
        (show (decimalStr d).data ≠ [] from decimalAux_ne_nil (d + 1) d (by omega)) hA]
  have hd10 : d < 10 ^ (d + 1) :=
    lt_of_lt_of_le (Nat.lt_pow_self (by norm_num) d)
      (Nat.pow_le_pow_right (by norm_num) (by omega))
  rw [show (decimalStr d).data = decimalAux (d + 1) d from rfl,
      decimalAux_value (d + 1) d hd10]

/-- C2 as amended: a diagnostic carrying a structured `RetryInfo` record
that declares a delay of `d` seconds — embedded one level deep as a
JSON-encoded string inside the outer payload, as the Gemini API sends
it — is classified as retry-after exactly `d` seconds, provided the
`details` scan actually reaches that record (`scanDetails ds = .found`):
a `null` element or a `RetryInfo` record with a truthy non-string
`retryDelay` standing earlier in the array throws a `TypeError` that
aborts the loop, and classification falls back to the default delay
instead (see the counterexample below). -/
theorem classifier_structured_delay (msg s : String) (outer inner : Json)
    (ds : List Json) (d : Nat)
    (h1 : Json.parse msg = some outer)
    (h2 : jsGet2 outer "error" "message" = some (.str s))
    (h3 : Json.parse (cleanupInner s) = some inner)
    (h4 : jsGet2 inner "error" "details" = some (.arr ds))
    (h5 : scanDetails ds = .found (decimalStr d ++ "s")) :
    parseRetryDelay msg = some ((d : Nat) : Int) := by
  have hsne : s.data.isEmpty = false := by
    cases hse : s.data.isEmpty
    · rfl
    · exfalso
      have hnil : s.data = [] := by simpa using hse
      have hs0 : cleanupInner s = "" := by
        unfold cleanupInner
        rw [hnil]
        rfl
      rw [hs0, show Json.parse "" = none from rfl] at h3
      exact Option.noConfusion h3
  obtain ⟨l, rfl⟩ : ∃ l, inner = .obj l := by
    cases inner with
    | obj l => exact ⟨l, rfl⟩
    | null => simp [jsGet2, jsGet] at h4
    | bool b => simp [jsGet2, jsGet] at h4
    | num n => simp [jsGet2, jsGet] at h4
    | str s' => simp [jsGet2, jsGet] at h4
    | arr xs => simp [jsGet2, jsGet] at h4
  unfold parseRetryDelay structuredResult handleOuter innerDetails
  simp only [h1, h2, h3, h4, h5, jsTruthy, hsne, Bool.not_false, if_true,
    parseInt_replace_decimal]

set_option maxRecDepth 100000 in
theorem classifier_structured_delay_witness :
    parseRetryDelay msgStructured = some ((30 : Nat) : Int) :=
  classifier_structured_delay msgStructured msgStructuredInner outerTree innerTree
    [retryDetail] 30 rfl rfl rfl rfl rfl

set_option maxRecDepth 100000 in
/-- C2 counterexample: `msgNullStructured` contains — embedded one level
deep — a structured `RetryInfo` record declaring 30 seconds (the first
six conjuncts exhibit it inside the parsed payload), yet the classifier
returns the default 60 seconds, not 30: the `null` element standing
before the record in the `details` array makes `detail["@type"]` throw a
`TypeError`, the inner `catch` swallows it, and the regex fallback cannot
match the backslash-escaped inner text. The claim as frozen is false of
the program at this input. -/
theorem classifier_structured_null_abort :
    Json.parse msgNullStructured = some outerNullTree ∧
    jsGet2 outerNullTree "error" "message" = some (.str msgNullInner) ∧
    Json.parse (cleanupInner msgNullInner) = some innerNullTree ∧
    jsGet2 innerNullTree "error" "details" = some (.arr [Json.null, retryDetail]) ∧
    jsGet retryDetail "@type" =
      some (.str "type.googleapis.com/google.rpc.RetryInfo") ∧
    jsGet retryDetail "retryDelay" = some (.str (decimalStr 30 ++ "s")) ∧
    parseRetryDelay msgNullStructured = some DEFAULT_RETRY_DELAY ∧
    parseRetryDelay msgNullStructured ≠ some ((30 : Nat) : Int) :=
  ⟨rfl, rfl, rfl, rfl, rfl, rfl, rfl, by
    intro h
    rw [show parseRetryDelay msgNullStructured = some DEFAULT_RETRY_DELAY from rfl] at h
    exact absurd h (by decide)⟩

/-! ## C1: what one slot's terminal failure does to the run -/

/-- C1 counterexample: with the icon slot failing terminally and both
screenshot slots able to succeed, the run is aborted at the icon slot
(`process.exit(1)` in `generateImage`'s catch); the embed and splash slots
are never attempted and no artifact or failure report is recorded — the
spec's "continues to the next slot" does not hold of the code. -/
theorem pipeline_abort_counterexample :
    generateImageRun "example.com"
      ⟨none, some "screenshot-embed-t.png", some "screenshot-splash-t.png",
       some cfgEmpty, true⟩ = (.aborted, [Slot.icon]) ∧
    Slot.embed ∉ [Slot.icon] ∧ Slot.splash ∉ [Slot.icon] :=
  ⟨rfl, by decide, by decide⟩

/-- C1 as amended: a slot failure aborts the whole run at that slot — no
later slot is attempted — and a run completes (with all three artifacts
recorded and the configuration synchronizer invoked) exactly when every
slot succeeds. -/
theorem pipeline_aborts_on_slot_failure (domain : String) (env : FluxEnv)
    (hd : domain.isEmpty = false) :
    (env.iconOutcome = none →
      generateImageRun domain env = (.aborted, [Slot.icon])) ∧
    (∀ i, env.iconOutcome = some i → env.embedOutcome = none →
      generateImageRun domain env = (.aborted, [Slot.icon, Slot.embed])) ∧
    (∀ i e, env.iconOutcome = some i → env.embedOutcome = some e →
      env.splashOutcome = none →
      generateImageRun domain env = (.aborted, [Slot.icon, Slot.embed, Slot.splash])) ∧
    (∀ i e s, env.iconOutcome = some i → env.embedOutcome = some e →
      env.splashOutcome = some s →
      generateImageRun domain env =
        (.completed i e s
          (updateFarcasterConfig env.configFile env.configWritable domain ⟨i, e, s⟩).1
          (updateFarcasterConfig env.configFile env.configWritable domain ⟨i, e, s⟩).2,
         [Slot.icon, Slot.embed, Slot.splash])) := by
  refine ⟨?_, ?_, ?_, ?_⟩
  · intro h1
    simp [generateImageRun, hd, h1]
  · intro i h1 h2
    simp [generateImageRun, hd, h1, h2]
  · intro i e h1 h2 h3
    simp [generateImageRun, hd, h1, h2, h3]
  · intro i e s h1 h2 h3
    simp [generateImageRun, hd, h1, h2, h3]

theorem pipeline_aborts_on_slot_failure_witness :
    generateImageRun "example.com"
      ⟨none, some "e.png", some "s.png", none, true⟩ = (.aborted, [Slot.icon]) :=
  (pipeline_aborts_on_slot_failure "example.com"
    ⟨none, some "e.png", some "s.png", none, true⟩ rfl).1 rfl

/-! ## C8: configuration-sync failure is non-fatal -/

/-- C8: when the shared configuration document is missing or unparsable,
the synchronizer writes nothing and reports `false`, and a run whose three
generations succeed still completes with all three artifacts — config-sync
failure never aborts artifact generation. -/
theorem configSync_failure_nonfatal (domain : String) (env : FluxEnv)
    (i e s : String)
    (hd : domain.isEmpty = false)
    (hcfg : env.configFile = none ∨
      ∃ c, env.configFile = some c ∧ Json.parse c = none)
    (hi : env.iconOutcome = some i) (he : env.embedOutcome = some e)
    (hs : env.splashOutcome = some s) :
    updateFarcasterConfig env.configFile env.configWritable domain ⟨i, e, s⟩ =
      (false, none) ∧
    generateImageRun domain env =
      (.completed i e s false none, [Slot.icon, Slot.embed, Slot.splash]) := by
  have hu : updateFarcasterConfig env.configFile env.configWritable domain ⟨i, e, s⟩ =
      (false, none) := by
    rcases hcfg with h | ⟨c, hc, hp⟩
    · rw [h]
      rfl
    · rw [hc]
      simp [updateFarcasterConfig, hp]
  refine ⟨hu, ?_⟩
  simp [generateImageRun, hd, hi, he, hs, hu]

theorem configSync_failure_nonfatal_witness :
    updateFarcasterConfig (some "not json") true "example.com"
      ⟨"i.png", "e.png", "s.png"⟩ = (false, none) ∧
    generateImageRun "example.com"
      ⟨some "i.png", some "e.png", some "s.png", some "not json", true⟩ =
      (.completed "i.png" "e.png" "s.png" false none,
       [Slot.icon, Slot.embed, Slot.splash]) :=
  configSync_failure_nonfatal "example.com"
    ⟨some "i.png", some "e.png", some "s.png", some "not json", true⟩
    "i.png" "e.png" "s.png" rfl (Or.inr ⟨"not json", rfl, rfl⟩) rfl rfl rfl

/-! ## C6, C7: the configuration synchronizer -/

lemma lookupField_jsSet_self (k : String) (v : Json) (l : List (String × Json)) :
    lookupField k (jsSet k v l) = some v := by
  induction l with
  | nil => simp [jsSet, lookupField]
  | cons p rest ih =>
    obtain ⟨k1, v1⟩ := p
    by_cases h : (k1 == k) = true
    · simp [jsSet, h, lookupField]
    · have heq : (k1 == k) = false := by simpa using h
      simp [jsSet, heq, lookupField, ih]

lemma lookupField_jsSet_ne (k k' : String) (v : Json) (l : List (String × Json))
    (h : k' ≠ k) :
    lookupField k' (jsSet k v l) = lookupField k' l := by
  have hkk : (k == k') = false := beq_eq_false_iff_ne.mpr (Ne.symm h)
  induction l with
  | nil => simp [jsSet, lookupField, hkk]
  | cons p rest ih =>
    obtain ⟨k1, v1⟩ := p
    by_cases h1 : (k1 == k) = true
    · have hk1 : k1 = k := by simpa using h1
      subst hk1
      simp [jsSet, lookupField, hkk]
    · have heq : (k1 == k) = false := by simpa using h1
      simp [jsSet, heq, lookupField, ih]

lemma mapFst_jsSet (k : String) (v : Json) (l : List (String × Json))
    (h : lookupField k l ≠ none) :
    (jsSet k v l).map Prod.fst = l.map Prod.fst := by
  induction l with
  | nil => simp [lookupField] at h
  | cons p rest ih =>
    obtain ⟨k1, v1⟩ := p
    by_cases h1 : (k1 == k) = true
    · have hk1 : k1 = k := by simpa using h1
      subst hk1
      simp [jsSet]
    · have heq : (k1 == k) = false := by simpa using h1
      have h' : lookupField k rest ≠ none := by
        simp only [lookupField, heq] at h
        simpa using h
      simp [jsSet, heq, ih h']

lemma lookupField_setIfTruthy_ne (k k' : String) (v : Json)
    (l : List (String × Json)) (h : k' ≠ k) :
    lookupField k' (setIfTruthy k v l) = lookupField k' l := by
  unfold setIfTruthy
  cases hl : lookupField k l with
  | none => rfl
  | some w =>
    show lookupField k' (if jsTruthy w = true then jsSet k v l else l) = lookupField k' l
    by_cases ht : jsTruthy w = true
    · rw [if_pos ht]
      exact lookupField_jsSet_ne k k' v l h
    · rw [if_neg ht]

lemma mapFst_setIfTruthy (k : String) (v : Json) (l : List (String × Json)) :
    (setIfTruthy k v l).map Prod.fst = l.map Prod.fst := by
  unfold setIfTruthy
  cases hl : lookupField k l with
  | none => rfl
  | some w =>
    show List.map Prod.fst (if jsTruthy w = true then jsSet k v l else l) =
      List.map Prod.fst l
    by_cases ht : jsTruthy w = true
    · rw [if_pos ht]
      exact mapFst_jsSet k v l (by rw [hl]; simp)
    · rw [if_neg ht]

lemma updateHomeUrl_ok (cd : String) (l : List (String × Json))
    (hwf : ∀ v, lookupField "homeUrl" l = some v → jsTruthy v = true →
      ∃ s, v = .str s) :
    ∃ l2, updateHomeUrl cd l = .ok l2 ∧
      l2.map Prod.fst = l.map Prod.fst ∧
      (∀ k, k ≠ "homeUrl" → lookupField k l2 = lookupField k l) ∧
      (∀ s, lookupField "homeUrl" l = some (.str s) →
        jsIncludes s "your-domain.com" = false →
        lookupField "homeUrl" l2 = some (.str s)) := by
  cases hl : lookupField "homeUrl" l with
  | none =>
    refine ⟨l, ?_, rfl, fun _ _ => rfl, fun s hs _ => Option.noConfusion hs⟩
    simp [updateHomeUrl, hl]
  | some v =>
    by_cases ht : jsTruthy v = true
    · obtain ⟨s, rfl⟩ := hwf v hl ht
      by_cases hinc : jsIncludes s "your-domain.com" = true
      · refine ⟨jsSet "homeUrl"
            (.str (jsReplaceAll s "https://your-domain.com" ("https://" ++ cd))) l,
          ?_, mapFst_jsSet _ _ _ (by rw [hl]; simp),
          fun k hk => lookupField_jsSet_ne _ k _ l hk, ?_⟩
        · simp [updateHomeUrl, hl, ht, hinc]
        · intro s' hs' hninc
          injection hs' with hv
          injection hv with hv2
          subst hv2
          rw [hinc] at hninc
          exact Bool.noConfusion hninc
      · refine ⟨l, ?_, rfl, fun _ _ => rfl, fun s' hs' _ => by rw [hl]; exact hs'⟩
        simp [updateHomeUrl, hl, ht, hinc]
    · refine ⟨l, ?_, rfl, fun _ _ => rfl, fun s' hs' _ => by rw [hl]; exact hs'⟩
      simp [updateHomeUrl, hl, ht]

lemma updateMiniapp_ok (mf : List (String × Json)) (iu eu su cd : String)
    (hwf : ∀ v, lookupField "homeUrl" mf = some v → jsTruthy v = true →
      ∃ s, v = .str s) :
    ∃ mf2, updateMiniapp mf iu eu su cd = .ok mf2 ∧
      mf2.map Prod.fst = mf.map Prod.fst ∧
      (∀ k, k ≠ "iconUrl" → k ≠ "homeUrl" → k ≠ "imageUrl" →
        k ≠ "splashImageUrl" → lookupField k mf2 = lookupField k mf) ∧
      (∀ s, lookupField "homeUrl" mf = some (.str s) →
        jsIncludes s "your-domain.com" = false →
        lookupField "homeUrl" mf2 = some (.str s)) := by
  have hwf1 : ∀ v, lookupField "homeUrl" (setIfTruthy "iconUrl" (.str iu) mf) = some v →
      jsTruthy v = true → ∃ s, v = .str s := by
    intro v hv ht
    rw [lookupField_setIfTruthy_ne _ _ _ _ (by decide)] at hv
    exact hwf v hv ht
  obtain ⟨mfa, hok, hmap, hne, hhome⟩ :=
    updateHomeUrl_ok cd (setIfTruthy "iconUrl" (.str iu) mf) hwf1
  refine ⟨setIfTruthy "splashImageUrl" (.str su) (setIfTruthy "imageUrl" (.str eu) mfa),
    ?_, ?_, ?_, ?_⟩
  · simp [updateMiniapp, hok]
  · rw [mapFst_setIfTruthy, mapFst_setIfTruthy, hmap, mapFst_setIfTruthy]
  · intro k h1 h2 h3 h4
    rw [lookupField_setIfTruthy_ne _ _ _ _ h4, lookupField_setIfTruthy_ne _ _ _ _ h3,
        hne k h2, lookupField_setIfTruthy_ne _ _ _ _ h1]
  · intro s hs hninc
    rw [lookupField_setIfTruthy_ne _ _ _ _ (by decide),
        lookupField_setIfTruthy_ne _ _ _ _ (by decide)]
    exact hhome s
      (by rw [lookupField_setIfTruthy_ne _ _ _ _ (by decide)]; exact hs) hninc

/-- C6: on a parsed configuration document the synchronizer touches at
most the recognized target fields inside `miniapp` (`homeUrl` only when it
still contains the placeholder domain); every other field — known or
unknown, at the top level or inside `miniapp` — keeps its exact value, and
the key lists of the document and of `miniapp` are unchanged, so no field
present before the merge is removed. -/
theorem config_update_preserves (content domain : String) (fns : ImageFilenames)
    (tf : List (String × Json))
    (hparse : Json.parse content = some (.obj tf))
    (hwf : ∀ mf, lookupField "miniapp" tf = some (.obj mf) →
      ∀ v, lookupField "homeUrl" mf = some v → jsTruthy v = true →
        ∃ s, v = .str s) :
    ∃ tf2, updateFarcasterConfig (some content) true domain fns =
        (true, some (.obj tf2)) ∧
      tf2.map Prod.fst = tf.map Prod.fst ∧
      (∀ k, k ≠ "miniapp" → lookupField k tf2 = lookupField k tf) ∧
      (∀ mf, lookupField "miniapp" tf = some (.obj mf) →
        ∃ mf2, lookupField "miniapp" tf2 = some (.obj mf2) ∧
          mf2.map Prod.fst = mf.map Prod.fst ∧
          (∀ k, k ≠ "iconUrl" → k ≠ "homeUrl" → k ≠ "imageUrl" →
            k ≠ "splashImageUrl" → lookupField k mf2 = lookupField k mf) ∧
          (∀ s, lookupField "homeUrl" mf = some (.str s) →
            jsIncludes s "your-domain.com" = false →
            lookupField "homeUrl" mf2 = some (.str s))) ∧
      ((∀ mf, lookupField "miniapp" tf ≠ some (.obj mf)) → tf2 = tf) := by
  cases hm : lookupField "miniapp" tf with
  | none =>
    refine ⟨tf, ?_, rfl, fun _ _ => rfl, ?_, fun _ => rfl⟩
    · simp [updateFarcasterConfig, hparse, applyConfigUpdates, hm]
    · intro mf hmf
      exact Option.noConfusion hmf
  | some v =>
    cases v with
    | obj mf =>
      obtain ⟨mf2, hok, hmap, hne, hhome⟩ :=
        updateMiniapp_ok mf
          ("https://" ++ stripProtocol domain ++ "/images/" ++ fns.icon)
          ("https://" ++ stripProtocol domain ++ "/images/" ++ fns.embed)
          ("https://" ++ stripProtocol domain ++ "/images/" ++ fns.splash)
          (stripProtocol domain) (hwf mf hm)
      refine ⟨jsSet "miniapp" (.obj mf2) tf, ?_, ?_, ?_, ?_, ?_⟩
      · simp [updateFarcasterConfig, hparse, applyConfigUpdates, hm, hok]
      · exact mapFst_jsSet _ _ _ (by rw [hm]; simp)
      · intro k hk
        exact lookupField_jsSet_ne _ k _ tf hk
      · intro mf' hmf'
        injection hmf' with hv
        injection hv with hv2
        subst hv2
        exact ⟨mf2, lookupField_jsSet_self _ _ _, hmap, hne, hhome⟩
      · intro hno
        exact absurd rfl (hno mf)
    | null =>
      refine ⟨tf, ?_, rfl, fun _ _ => rfl, ?_, fun _ => rfl⟩
      · simp [updateFarcasterConfig, hparse, applyConfigUpdates, hm]
      · intro mf hmf
        injection hmf with hv
        exact Json.noConfusion hv
    | bool b =>
      refine ⟨tf, ?_, rfl, fun _ _ => rfl, ?_, fun _ => rfl⟩
      · simp [updateFarcasterConfig, hparse, applyConfigUpdates, hm]
      · intro mf hmf
        injection hmf with hv
        exact Json.noConfusion hv
    | num n =>
      refine ⟨tf, ?_, rfl, fun _ _ => rfl, ?_, fun _ => rfl⟩
      · simp [updateFarcasterConfig, hparse, applyConfigUpdates, hm]
      · intro mf hmf
        injection hmf with hv
        exact Json.noConfusion hv
    | str s =>
      refine ⟨tf, ?_, rfl, fun _ _ => rfl, ?_, fun _ => rfl⟩
      · simp [updateFarcasterConfig, hparse, applyConfigUpdates, hm]
      · intro mf hmf
        injection hmf with hv
        exact Json.noConfusion hv
    | arr xs =>
      refine ⟨tf, ?_, rfl, fun _ _ => rfl, ?_, fun _ => rfl⟩
      · simp [updateFarcasterConfig, hparse, applyConfigUpdates, hm]
      · intro mf hmf
        injection hmf with hv
        exact Json.noConfusion hv

set_option maxRecDepth 100000 in
theorem config_update_preserves_witness :
    ∃ tf2, updateFarcasterConfig (some cfgUnknownField) true "newdomain.dev" fnsDemo =
      (true, some (.obj tf2)) ∧
      lookupField "custom" tf2 = lookupField "custom" tfDemo := by
  obtain ⟨tf2, h1, _, h3, _, _⟩ :=
    config_update_preserves cfgUnknownField "newdomain.dev" fnsDemo tfDemo rfl
      (fun mf hmf => by
        rw [show lookupField "miniapp" tfDemo = some (Json.obj mfDemo) from rfl] at hmf
        injection hmf with hv
        injection hv with hv2
        intro v hv' ht
        rw [← hv2] at hv'
        rw [show lookupField "homeUrl" mfDemo = none from rfl] at hv'
        exact Option.noConfusion hv')
  exact ⟨tf2, h1, h3 "custom" (by decide)⟩

/-- C7 counterexample: on the empty document `\x7b\x7d` the synchronizer
changes nothing — the written document equals the parsed input — yet it
returns `true`, refuting "returns true if and only if at least one field
actually changed". -/
theorem apply_true_without_change :
    updateFarcasterConfig (some cfgEmpty) true "example.com" fnsDemo =
      (true, some (Json.obj [])) ∧
    Json.parse cfgEmpty = some (Json.obj []) :=
  ⟨rfl, rfl⟩

/-- C7 as amended: `updateFarcasterConfig` returns `true` exactly when the
document exists, parses, the update step raises no error and the write
succeeds — independently of whether any field changed; it returns `false`
when the document is missing, unparsable or unwritable. -/
theorem updateFarcasterConfig_true_iff (file : Option String) (w : Bool)
    (domain : String) (fns : ImageFilenames) :
    (updateFarcasterConfig file w domain fns).1 = true ↔
      ∃ content config newConfig, file = some content ∧
        Json.parse content = some config ∧
        applyConfigUpdates config
          ("https://" ++ stripProtocol domain ++ "/images/" ++ fns.icon)
          ("https://" ++ stripProtocol domain ++ "/images/" ++ fns.embed)
          ("https://" ++ stripProtocol domain ++ "/images/" ++ fns.splash)
          (stripProtocol domain) = .ok newConfig ∧ w = true := by
  constructor
  · intro h
    cases file with
    | none =>
      have hf : (updateFarcasterConfig none w domain fns).1 = false := rfl
      rw [hf] at h
      exact Bool.noConfusion h
    | some content =>
      cases hp : Json.parse content with
      | none =>
        have hf : (updateFarcasterConfig (some content) w domain fns).1 = false := by
          simp [updateFarcasterConfig, hp]
        rw [hf] at h
        exact Bool.noConfusion h
      | some config =>
        cases ha : applyConfigUpdates config
            ("https://" ++ stripProtocol domain ++ "/images/" ++ fns.icon)
            ("https://" ++ stripProtocol domain ++ "/images/" ++ fns.embed)
            ("https://" ++ stripProtocol domain ++ "/images/" ++ fns.splash)
            (stripProtocol domain) with
        | error e =>
          have hf : (updateFarcasterConfig (some content) w domain fns).1 = false := by
            simp [updateFarcasterConfig, hp, ha]
          rw [hf] at h
          exact Bool.noConfusion h
        | ok nc =>
          cases w with
          | false =>
            have hf : (updateFarcasterConfig (some content) false domain fns).1 = false := by
              simp [updateFarcasterConfig, hp, ha]
            rw [hf] at h
            exact Bool.noConfusion h
          | true => exact ⟨content, config, nc, rfl, hp, ha, rfl⟩
  · rintro ⟨content, config, nc, rfl, hp, ha, rfl⟩
    simp [updateFarcasterConfig, hp, ha]
